import Mathlib

/-!
Verification development for the stock-analysis dashboard
(source file: analise-acoes-dashboard.py).

The Python source is shallowly embedded below:

* numeric values (pandas / yfinance floats) are modelled as rationals;
  a possibly-missing (NaN) value is modelled as an `Option`;
* Python strings are Lean `String`s, `str.replace` is modelled
  character-wise (all occurrences, resp. first occurrence only — the
  patterns used by the source are single characters);
* the rendering `f"{v:,.2f}"` is modelled digit-by-digit: round the
  value to hundredths (ties to even, as Python's float formatting
  does), print the integer part with a comma every three digits, then
  a dot and two fractional digits;
* the pandas DataFrame holding price history is modelled as a
  chronological list of (date, close) pairs;
* the yfinance provider is modelled as an abstract record of fallible
  functions (`Except` models a raised exception);
* Plotly figures are modelled as records that store exactly the
  attributes the source sets on them.

Rational arithmetic must compute inside the kernel for the concrete
test cases below, hence the `unseal`.
-/

unseal Rat.mul Rat.add Rat.sub Rat.inv Rat.ofScientific

/-! ## Value formatter (`formatar_valor`, source lines 8-15) -/

/-- Result of `formatar_valor`: the Python function returns a string on
the `"real"`/`"percentual"`/NaN paths and the raw value otherwise. -/
inductive FmtResult where
  | str (s : String)
  | raw (v : ℚ)
  deriving DecidableEq

/-- Python `s.replace(a, b)` for one-character patterns: replace every
occurrence. -/
def replaceAllChar (a b : Char) : List Char → List Char
  | [] => []
  | c :: cs => (if c = a then b else c) :: replaceAllChar a b cs

/-- Python `s.replace(a, b, 1)` for one-character patterns: replace the
first occurrence only. -/
def replaceFirstChar (a b : Char) : List Char → List Char
  | [] => []
  | c :: cs => if c = a then b :: cs else c :: replaceFirstChar a b cs

/-- String wrapper for `replaceAllChar`. -/
def pyReplaceAll (s : String) (a b : Char) : String :=
  String.mk (replaceAllChar a b s.data)

/-- String wrapper for `replaceFirstChar`. -/
def pyReplaceFirst (s : String) (a b : Char) : String :=
  String.mk (replaceFirstChar a b s.data)

/-- Decimal digits of `n`, least significant first, via a fuel-bounded
structural recursion (so that it computes in the kernel). -/
def digitsRevFuel : Nat → Nat → List Char
  | 0, _ => []
  | fuel + 1, n =>
    if n < 10 then [Nat.digitChar n]
    else Nat.digitChar (n % 10) :: digitsRevFuel fuel (n / 10)

/-- Decimal digits of `n`, least significant first. -/
def natDigitsRev (n : Nat) : List Char :=
  digitsRevFuel (n + 1) n

/-- Decimal digits of `n`, most significant first. -/
def natDigits (n : Nat) : List Char :=
  (natDigitsRev n).reverse

/-- Insert a comma before every third digit, walking a reversed digit
list (`i` counts digits already emitted). -/
def insertCommasRev : List Char → Nat → List Char
  | [], _ => []
  | c :: cs, i =>
    (if i ≠ 0 ∧ i % 3 = 0 then [',', c] else [c]) ++ insertCommasRev cs (i + 1)

/-- Group a most-significant-first digit list with a comma every three
digits, as Python's `,` format flag does. -/
def group3 (ds : List Char) : List Char :=
  (insertCommasRev ds.reverse 0).reverse

/-- The two fractional digits of a number of hundredths. -/
def twoFracDigits (m : Nat) : List Char :=
  [Nat.digitChar (m / 10 % 10), Nat.digitChar (m % 10)]

/-- Floor of a rational, computably (`Int` division is floor division
for the positive denominator). -/
def ratFloor (q : ℚ) : ℤ := q.num / (q.den : ℤ)

/-- Round to the nearest integer, ties to even — the rounding Python
uses when formatting with `.2f`. -/
def roundHalfEven (q : ℚ) : ℤ :=
  let f := ratFloor q
  let r := q - (f : ℚ)
  if r < 1 / 2 then f
  else if 1 / 2 < r then f + 1
  else if f % 2 = 0 then f else f + 1

/-- Python `f"{q:,.2f}"` (with `grouped = true`) or `f"{q:.2f}"` (with
`grouped = false`): sign, integer part (optionally comma-grouped), dot,
two fractional digits. -/
def pyFormatFixed (grouped : Bool) (q : ℚ) : String :=
  let m : Nat := (roundHalfEven (|q| * 100)).toNat
  let ip := m / 100
  let fp := m % 100
  let ipChars := if grouped then group3 (natDigits ip) else natDigits ip
  String.mk ((if q < 0 then ['-'] else []) ++ ipChars ++ '.' :: twoFracDigits fp)

/-- Source lines 8-15.  `valor = none` models a NaN input (`pd.isna`).
The `"real"` branch is the literal chain
`f"R$ {valor:,.2f}".replace(",", ".").replace(".", ",", 1)`. -/
def formatar_valor (valor : Option ℚ) (tipo : String := ("real")) : FmtResult :=
  match valor with
  | none => FmtResult.str ("N/A")
  | some v =>
    if tipo = ("real") then
      FmtResult.str (pyReplaceFirst (pyReplaceAll (("R$ ") ++ pyFormatFixed true v) ',' '.') '.' ',')
    else if tipo = ("percentual") then
      FmtResult.str (pyFormatFixed false (v * 100) ++ ("%"))
    else FmtResult.raw v

/-- Value of a least-significant-first digit list (used to state that
the printed digits denote the rounded number). -/
def lsfVal : List Char → Nat
  | [] => 0
  | c :: cs => (c.toNat - 48) + 10 * lsfVal cs

/-- Value of a most-significant-first digit list. -/
def digitsVal (l : List Char) : Nat := lsfVal l.reverse

/-! ## Data retrieval (`obter_dados_tickers`, source lines 18-38) -/

/-- Abstract yfinance provider: fetching the daily history (for a date
range) and fetching the metadata record may each raise (`Except.error`
carries the exception text) — both calls sit inside the `try` block of
the source. -/
structure Provider (Info : Type) (Date : Type) where
  history : String → Date → Date → Except String (List ℚ)
  info : String → Except String Info

/-- The body of the per-ticker `try`/`except` block (source lines
22-37): fetch the history, report an empty history, otherwise read the
metadata; any raised error is converted to the warning text of line 37. -/
def fetchOne (p : Provider Info Date) (sd ed : Date) (t : String) :
    Except String (Info × List ℚ) :=
  match p.history t sd ed with
  | Except.error e => Except.error (t ++ (": Erro ao buscar dados (") ++ e ++ (")."))
  | Except.ok history =>
    if history.isEmpty then
      Except.error (t ++ (": Nenhum dado encontrado no intervalo especificado."))
    else
      match p.info t with
      | Except.error e => Except.error (t ++ (": Erro ao buscar dados (") ++ e ++ (")."))
      | Except.ok i => Except.ok (i, history)

/-- The successful outcome of `fetchOne`, keyed by the ticker (used to
characterise the `dados` dict). -/
def fetchOk (p : Provider Info Date) (sd ed : Date) (t : String) :
    Option (String × Info × List ℚ) :=
  match fetchOne p sd ed t with
  | Except.ok v => some (t, v)
  | Except.error _ => none

/-- The error string produced by `fetchOne`, if any (used to
characterise the `erros` list). -/
def fetchErr (p : Provider Info Date) (sd ed : Date) (t : String) : Option String :=
  match fetchOne p sd ed t with
  | Except.ok _ => none
  | Except.error e => some e

/-- Python dict assignment `d[k] = v`: overwrite in place if the key
exists, else append (insertion order preserved). -/
def dictInsert (k : String) (v : α) : List (String × α) → List (String × α)
  | [] => [(k, v)]
  | (k1, v1) :: rest => if k1 = k then (k, v) :: rest else (k1, v1) :: dictInsert k v rest

/-- One iteration of the `for ticker in tickers` loop: a success stores
into `dados`, a failure appends to `erros`. -/
def obterStep (p : Provider Info Date) (sd ed : Date)
    (acc : List (String × Info × List ℚ) × List String) (t : String) :
    List (String × Info × List ℚ) × List String :=
  match fetchOne p sd ed t with
  | Except.ok v => (dictInsert t v acc.1, acc.2)
  | Except.error e => (acc.1, acc.2 ++ [e])

/-- Source lines 18-38: iterate over the tickers, collecting the
`dados` dict (modelled as an insertion-ordered association list) and
the `erros` list. -/
def obter_dados_tickers (p : Provider Info Date) (tickers : List String)
    (start_date end_date : Date) : List (String × Info × List ℚ) × List String :=
  tickers.foldl (obterStep p start_date end_date) ([], [])

/-- Concrete provider used for the retrieval test scenario: one ticker
with empty history, one raising ticker, one well-behaved ticker. -/
def provTest : Provider Nat Nat where
  history := fun t _ _ =>
    if t = ("EMPT") then Except.ok []
    else if t = ("BOOM") then Except.error ("falha de rede")
    else Except.ok [(10 : ℚ), 11]
  info := fun _ => Except.ok 7

/-! ## Price chart builder (`criar_grafico_com_linhas`, source lines 41-108) -/

/-- The attributes the source sets on a `go.Scatter` trace (absent
keyword arguments stay `none`). -/
structure Scatter (Date : Type) where
  x : List Date
  y : List ℚ
  mode : String
  name : String
  lineColor : Option String := none
  markerColor : Option String := none
  markerSize : Option Nat := none
  text : Option (List String) := none
  textposition : Option String := none
  textfontColor : Option String := none
  textfontSize : Option Nat := none
  deriving DecidableEq

/-- The attributes the source passes to `fig.add_hline`. -/
structure HLine where
  y : ℚ
  lineColor : String
  annotationText : String
  annotationPosition : String
  annotationFontSize : Nat
  annotationFontColor : String
  lineWidth : Nat
  deriving DecidableEq

/-- An element added to the figure, in call order (`add_trace` /
`add_hline`). -/
inductive FigElem (Date : Type) where
  | scatter (tr : Scatter Date)
  | hline (hl : HLine)
  deriving DecidableEq

/-- The layout attributes set by `fig.update_layout`. -/
structure ChartLayout where
  title : String
  xaxisTitle : String
  yaxisTitle : String
  height : Nat
  deriving DecidableEq

/-- A Plotly figure: the elements added to it, in order, plus layout. -/
structure Figure (Date : Type) where
  elems : List (FigElem Date)
  layout : ChartLayout
  deriving DecidableEq

/-- Interpolation of a `formatar_valor` result into an f-string. -/
def fmtText : FmtResult → String
  | FmtResult.str s => s
  | FmtResult.raw v => toString v.num ++ ("/") ++ toString v.den

/-- pandas `Series.max` over the Close column. -/
def seriesMax : List ℚ → ℚ
  | [] => 0
  | c :: cs => cs.foldl max c

/-- pandas `Series.min` over the Close column. -/
def seriesMin : List ℚ → ℚ
  | [] => 0
  | c :: cs => cs.foldl min c

/-- Source lines 41-108.  The history DataFrame is a chronological list
of (date, close) pairs; an empty history returns `None` (line 42-43).
`iloc[-1]` is the last close, `iloc[-2]` the previous close with the
single-row fallback of line 49. -/
def criar_grafico_com_linhas (history : List (Date × ℚ)) (ticker : String) :
    Option (Figure Date) :=
  match history with
  | [] => none
  | h0 :: rest =>
    let closes := (h0 :: rest).map Prod.snd
    let max_valor := seriesMax closes
    let min_valor := seriesMin closes
    let ultimo_fechamento := closes.getLastD 0
    let fechamento_anterior :=
      if 1 < (h0 :: rest).length then closes.dropLast.getLastD 0 else ultimo_fechamento
    let cor_ultimo := if ultimo_fechamento > fechamento_anterior then ("green") else ("red")
    some
      { elems :=
          [FigElem.scatter
            { x := (h0 :: rest).map Prod.fst, y := closes, mode := ("lines"),
              name := ("Fechamento"), lineColor := some ("blue") },
           FigElem.hline
            { y := max_valor, lineColor := ("green"),
              annotationText := ("Máximo: ") ++ fmtText (formatar_valor (some max_valor)),
              annotationPosition := ("top right"), annotationFontSize := 12,
              annotationFontColor := ("green"), lineWidth := 2 },
           FigElem.hline
            { y := min_valor, lineColor := ("red"),
              annotationText := ("Mínimo: ") ++ fmtText (formatar_valor (some min_valor)),
              annotationPosition := ("bottom right"), annotationFontSize := 12,
              annotationFontColor := ("red"), lineWidth := 2 },
           FigElem.scatter
            { x := [((h0 :: rest).getLast (List.cons_ne_nil h0 rest)).1],
              y := [ultimo_fechamento], mode := ("markers+text"),
              name := ("Último Fechamento"), markerColor := some cor_ultimo,
              markerSize := some 10,
              text := some [fmtText (formatar_valor (some ultimo_fechamento))],
              textposition := some ("top center"), textfontColor := some cor_ultimo,
              textfontSize := some 12 }],
        layout :=
          { title := ("Histórico de Preços - ") ++ ticker, xaxisTitle := ("Data"),
            yaxisTitle := ("Preço de Fechamento"), height := 500 } }

/-! ## Radar chart builder (`criar_grafico_radar`, source lines 111-126) -/

/-- The attributes the source sets on a `go.Scatterpolar` trace.  The
value type is a parameter: the builder never inspects the values. -/
structure Scatterpolar (α : Type) where
  r : List α
  theta : List String
  fill : String
  name : String
  deriving DecidableEq

/-- A Plotly polar figure: traces plus the layout attributes set by the
source. -/
structure RadarFigure (α : Type) where
  traces : List (Scatterpolar α)
  title : String
  showlegend : Bool
  deriving DecidableEq

/-- Source lines 111-126: one closed (`fill = "toself"`) polar trace,
categories from the dict keys, radii from the dict values. -/
def criar_grafico_radar (valuation : List (String × α)) (nome_ativo : String) :
    RadarFigure α :=
  { traces :=
      [{ r := valuation.map Prod.snd, theta := valuation.map Prod.fst,
         fill := ("toself"), name := nome_ativo }],
    title := ("Gráfico de Radar - ") ++ nome_ativo,
    showlegend := true }

/-! ## Valuation extraction (source lines 203-209) -/

/-- A value stored in the yfinance `info` dict: either Python `None` or
a number. -/
inductive PyNum where
  | null
  | num (q : ℚ)
  deriving DecidableEq

/-- Python `info.get(k)` — default `None` when the key is missing. -/
def pyGet (info : List (String × PyNum)) (k : String) : PyNum :=
  (List.lookup k info).getD PyNum.null

/-- Python `info.get(k, d)` — the provided default when the key is
missing; a stored `None` is returned as is. -/
def pyGetD (info : List (String × PyNum)) (k : String) (d : PyNum) : PyNum :=
  (List.lookup k info).getD d

/-- Python truthiness of a numeric-or-None value: `None` and `0` are
falsy. -/
def pyTruthy : PyNum → Bool
  | PyNum.null => false
  | PyNum.num q => decide (q ≠ 0)

/-- Multiplication of a dict value by a constant.  (On Python `None`
this would raise a TypeError; in the source the multiplication is
guarded by the truthiness test, so that branch is unreachable.) -/
def pyNumMul : PyNum → ℚ → PyNum
  | PyNum.null, _ => PyNum.null
  | PyNum.num q, c => PyNum.num (q * c)

/-- Source lines 203-209: the five-entry valuation dict, in source
order.  The three price ratios are passed through with default `0`; the
two yield ratios are multiplied by 100 only when truthy, else set
to `0`. -/
def valuation (info : List (String × PyNum)) : List (String × PyNum) :=
  [(("P/L (Preço/Lucro)"), pyGetD info ("trailingPE") (PyNum.num 0)),
   (("P/L Projetado"), pyGetD info ("forwardPE") (PyNum.num 0)),
   (("P/VP"), pyGetD info ("priceToBook") (PyNum.num 0)),
   (("Dividend Yield (%)"),
     if pyTruthy (pyGet info ("dividendYield")) then
       pyNumMul (pyGetD info ("dividendYield") (PyNum.num 0)) 100
     else PyNum.num 0),
   (("Payout Ratio (%)"),
     if pyTruthy (pyGet info ("payoutRatio")) then
       pyNumMul (pyGetD info ("payoutRatio") (PyNum.num 0)) 100
     else PyNum.num 0)]

/-- Number of occurrences of a character in a character list. -/
def countChar (a : Char) : List Char → Nat
  | [] => 0
  | c :: cs => (if c = a then 1 else 0) + countChar a cs

/-! ## Helper lemmas: digits and character counts -/

theorem digitChar_facts (d : Nat) (hd : d ≤ 9) :
    Nat.digitChar d ≠ '.' ∧ Nat.digitChar d ≠ ',' ∧ (Nat.digitChar d).isDigit = true ∧
      (Nat.digitChar d).toNat = 48 + d := by
  interval_cases d <;> exact ⟨by decide, by decide, by decide, by decide⟩

theorem digitsRevFuel_eq (f1 : Nat) :
    ∀ f2 n : Nat, n < f1 → n < f2 → digitsRevFuel f1 n = digitsRevFuel f2 n := by
  induction f1 with
  | zero => intro f2 n h1 h2; omega
  | succ f ih =>
    intro f2 n h1 h2
    cases f2 with
    | zero => omega
    | succ g =>
      by_cases hn : n < 10
      · simp [digitsRevFuel, hn]
      · simp only [digitsRevFuel, hn, if_false]
        congr 1
        exact ih g (n / 10) (by omega) (by omega)

theorem natDigitsRev_eq (n : Nat) :
    natDigitsRev n =
      if n < 10 then [Nat.digitChar n]
      else Nat.digitChar (n % 10) :: natDigitsRev (n / 10) := by
  by_cases hn : n < 10
  · simp [natDigitsRev, digitsRevFuel, hn]
  · simp only [natDigitsRev, digitsRevFuel, hn, if_false]
    congr 1
    exact digitsRevFuel_eq n (n / 10 + 1) (n / 10) (by omega) (by omega)

theorem mem_natDigitsRev (n : Nat) :
    ∀ c ∈ natDigitsRev n, ∃ d, d ≤ 9 ∧ c = Nat.digitChar d := by
  induction n using Nat.strong_induction_on with
  | _ n ih =>
    intro c hc
    rw [natDigitsRev_eq] at hc
    by_cases hn : n < 10
    · rw [if_pos hn] at hc
      simp only [List.mem_singleton] at hc
      exact ⟨n, by omega, hc⟩
    · rw [if_neg hn] at hc
      rcases List.mem_cons.mp hc with h | h
      · exact ⟨n % 10, by omega, h⟩
      · exact ih (n / 10) (by omega) c h

theorem mem_natDigits (n : Nat) :
    ∀ c ∈ natDigits n, ∃ d, d ≤ 9 ∧ c = Nat.digitChar d := by
  intro c hc
  rw [natDigits, List.mem_reverse] at hc
  exact mem_natDigitsRev n c hc

theorem mem_insertCommasRev :
    ∀ (l : List Char) (i : Nat) (c : Char), c ∈ insertCommasRev l i → c = ',' ∨ c ∈ l := by
  intro l
  induction l with
  | nil => intro i c hc; simp [insertCommasRev] at hc
  | cons a as ih =>
    intro i c hc
    simp only [insertCommasRev] at hc
    rcases List.mem_append.mp hc with h | h
    · by_cases hi : i ≠ 0 ∧ i % 3 = 0
      · rw [if_pos hi] at h
        rcases List.mem_cons.mp h with h1 | h1
        · exact Or.inl h1
        · simp only [List.mem_singleton] at h1
          exact Or.inr (h1 ▸ List.mem_cons_self a as)
      · rw [if_neg hi] at h
        simp only [List.mem_singleton] at h
        exact Or.inr (h ▸ List.mem_cons_self a as)
    · rcases ih (i + 1) c h with h1 | h1
      · exact Or.inl h1
      · exact Or.inr (List.mem_cons_of_mem a h1)

theorem mem_group3 (ds : List Char) (c : Char) (hc : c ∈ group3 ds) : c = ',' ∨ c ∈ ds := by
  rw [group3, List.mem_reverse] at hc
  rcases mem_insertCommasRev ds.reverse 0 c hc with h | h
  · exact Or.inl h
  · exact Or.inr (List.mem_reverse.mp h)

theorem countChar_append (a : Char) :
    ∀ l1 l2 : List Char, countChar a (l1 ++ l2) = countChar a l1 + countChar a l2 := by
  intro l1 l2
  induction l1 with
  | nil => simp [countChar]
  | cons c cs ih => simp [countChar, ih]; omega

theorem countChar_eq_zero (a : Char) :
    ∀ l : List Char, (∀ c ∈ l, c ≠ a) → countChar a l = 0 := by
  intro l
  induction l with
  | nil => intro; rfl
  | cons c cs ih =>
    intro h
    simp only [countChar]
    rw [if_neg (h c (List.mem_cons_self c cs)), ih (fun d hd => h d (List.mem_cons_of_mem c hd))]

theorem natDigits_no_dot (n : Nat) : countChar '.' (natDigits n) = 0 := by
  refine countChar_eq_zero _ _ (fun c hc => ?_)
  obtain ⟨d, hd, rfl⟩ := mem_natDigits n c hc
  exact (digitChar_facts d hd).1

theorem group3_natDigits_no_dot (n : Nat) : countChar '.' (group3 (natDigits n)) = 0 := by
  refine countChar_eq_zero _ _ (fun c hc => ?_)
  rcases mem_group3 (natDigits n) c hc with h | h
  · rw [h]; decide
  · obtain ⟨d, hd, rfl⟩ := mem_natDigits n c h
    exact (digitChar_facts d hd).1

theorem twoFracDigits_no_dot (m : Nat) : countChar '.' (twoFracDigits m) = 0 := by
  refine countChar_eq_zero _ _ (fun c hc => ?_)
  rw [twoFracDigits] at hc
  rcases List.mem_cons.mp hc with h | h
  · exact h ▸ (digitChar_facts (m / 10 % 10) (by omega)).1
  · simp only [List.mem_singleton] at h
    exact h ▸ (digitChar_facts (m % 10) (by omega)).1

theorem countChar_dot_pyFormatFixed (g : Bool) (v : ℚ) :
    countChar '.' (pyFormatFixed g v).data = 1 := by
  show countChar '.'
    ((if v < 0 then ['-'] else []) ++
      (if g then group3 (natDigits ((roundHalfEven (|v| * 100)).toNat / 100))
       else natDigits ((roundHalfEven (|v| * 100)).toNat / 100)) ++
      '.' :: twoFracDigits ((roundHalfEven (|v| * 100)).toNat % 100)) = 1
  rw [countChar_append, countChar_append]
  have h1 : countChar '.' (if v < 0 then ['-'] else []) = 0 := by
    split <;> decide
  have h2 : countChar '.'
      (if g then group3 (natDigits ((roundHalfEven (|v| * 100)).toNat / 100))
       else natDigits ((roundHalfEven (|v| * 100)).toNat / 100)) = 0 := by
    split
    · exact group3_natDigits_no_dot _
    · exact natDigits_no_dot _
  have h3 : countChar '.' ('.' :: twoFracDigits ((roundHalfEven (|v| * 100)).toNat % 100)) = 1 := by
    show (if ('.' : Char) = '.' then 1 else 0) +
      countChar '.' (twoFracDigits ((roundHalfEven (|v| * 100)).toNat % 100)) = 1
    rw [twoFracDigits_no_dot, if_pos rfl]
  omega

theorem replaceAllChar_of_count_zero (b : Char) :
    ∀ l : List Char, countChar ',' l = 0 → replaceAllChar ',' b l = l := by
  intro l
  induction l with
  | nil => intro; rfl
  | cons c cs ih =>
    intro h
    simp only [countChar] at h
    have hc : ¬ (c = ',') := by
      intro hc; rw [if_pos hc] at h; omega
    rw [replaceAllChar, if_neg hc, ih (by rw [if_neg hc] at h; omega)]

theorem replaceFirst_dot_comma :
    ∀ l : List Char, countChar '.' l = 1 → countChar ',' l = 0 →
      countChar ',' (replaceFirstChar '.' ',' l) = 1 ∧
      countChar '.' (replaceFirstChar '.' ',' l) = 0 := by
  intro l
  induction l with
  | nil => intro hd _; simp [countChar] at hd
  | cons c cs ih =>
    intro hd hc
    simp only [countChar] at hd hc
    by_cases h1 : c = '.'
    · rw [if_pos h1] at hd
      have hcs : countChar '.' cs = 0 := by omega
      have hcomma : countChar ',' cs = 0 := by
        rw [if_neg (by rw [h1]; decide)] at hc; omega
      rw [replaceFirstChar, if_pos h1]
      constructor
      · show (if (',' : Char) = ',' then 1 else 0) + countChar ',' cs = 1
        rw [hcomma, if_pos rfl]
      · show (if (',' : Char) = '.' then 1 else 0) + countChar '.' cs = 0
        rw [hcs, if_neg (by decide)]
    · rw [if_neg h1] at hd
      have hc2 : ¬ (c = ',') := by
        intro hcc; rw [if_pos hcc] at hc; omega
      rw [if_neg hc2] at hc
      obtain ⟨ih1, ih2⟩ := ih (by omega) (by omega)
      rw [replaceFirstChar, if_neg h1]
      constructor
      · simp only [countChar, if_neg hc2, ih1]
      · simp only [countChar, if_neg h1, ih2]

theorem lsfVal_natDigitsRev (n : Nat) : lsfVal (natDigitsRev n) = n := by
  induction n using Nat.strong_induction_on with
  | _ n ih =>
    rw [natDigitsRev_eq]
    by_cases hn : n < 10
    · rw [if_pos hn]
      simp only [lsfVal]
      have := (digitChar_facts n (by omega)).2.2.2
      omega
    · rw [if_neg hn]
      simp only [lsfVal, ih (n / 10) (by omega)]
      have := (digitChar_facts (n % 10) (by omega)).2.2.2
      omega

theorem digitsVal_natDigits (n : Nat) : digitsVal (natDigits n) = n := by
  rw [digitsVal, natDigits, List.reverse_reverse]
  exact lsfVal_natDigitsRev n

/-! ## Helper lemmas: the formatter branches -/

theorem formatar_valor_none (tipo : String) : formatar_valor none tipo = FmtResult.str ("N/A") := rfl

theorem formatar_valor_real (v : ℚ) :
    formatar_valor (some v) ("real") =
      FmtResult.str
        (pyReplaceFirst (pyReplaceAll (("R$ ") ++ pyFormatFixed true v) ',' '.') '.' ',') := rfl

theorem formatar_valor_percentual (v : ℚ) :
    formatar_valor (some v) ("percentual") =
      FmtResult.str (pyFormatFixed false (v * 100) ++ ("%")) := rfl

/-! ## Helper lemmas: the retrieval loop -/

theorem fetchOk_some {Info Date : Type} (p : Provider Info Date) (sd ed : Date)
    (a t : String) (v : Info × List ℚ) (h : fetchOk p sd ed a = some (t, v)) :
    a = t ∧ fetchOne p sd ed a = Except.ok v := by
  rw [fetchOk] at h
  rcases hfa : fetchOne p sd ed a with e | w <;> rw [hfa] at h
  · exact absurd h (by simp)
  · simp only [Option.some_inj, Prod.mk.injEq] at h
    exact ⟨h.1, by rw [h.2]⟩

theorem dictInsert_append (k : String) (v : α) :
    ∀ d : List (String × α), k ∉ d.map Prod.fst → dictInsert k v d = d ++ [(k, v)] := by
  intro d
  induction d with
  | nil => intro; rfl
  | cons p ps ih =>
    intro h
    obtain ⟨k1, v1⟩ := p
    simp only [List.map_cons, List.mem_cons, not_or] at h
    rw [dictInsert, if_neg (fun he => h.1 he.symm), ih h.2]
    rfl

theorem obter_foldl {Info Date : Type} (p : Provider Info Date) (sd ed : Date) :
    ∀ (ts : List String) (d0 : List (String × Info × List ℚ)) (e0 : List String),
      ts.Nodup → (∀ t ∈ ts, t ∉ d0.map Prod.fst) →
      ts.foldl (obterStep p sd ed) (d0, e0) =
        (d0 ++ ts.filterMap (fetchOk p sd ed), e0 ++ ts.filterMap (fetchErr p sd ed)) := by
  intro ts
  induction ts with
  | nil => intro d0 e0 _ _; simp
  | cons t ts ih =>
    intro d0 e0 hN hd
    obtain ⟨hnotin, hN2⟩ := List.nodup_cons.mp hN
    rw [List.foldl_cons]
    rcases hft : fetchOne p sd ed t with e | val
    · have hstep : obterStep p sd ed (d0, e0) t = (d0, e0 ++ [e]) := by
        simp only [obterStep, hft]
      have hok : fetchOk p sd ed t = none := by rw [fetchOk, hft]
      have herr : fetchErr p sd ed t = some e := by rw [fetchErr, hft]
      rw [hstep, ih d0 (e0 ++ [e]) hN2 (fun t1 ht1 => hd t1 (List.mem_cons_of_mem t ht1)),
        List.filterMap_cons, List.filterMap_cons, hok, herr, List.append_assoc]
      rfl
    · have hknotin : t ∉ d0.map Prod.fst := hd t (List.mem_cons_self t ts)
      have hstep : obterStep p sd ed (d0, e0) t = (d0 ++ [(t, val)], e0) := by
        simp only [obterStep, hft]
        rw [dictInsert_append t val d0 hknotin]
      have hok : fetchOk p sd ed t = some (t, val) := by rw [fetchOk, hft]
      have herr : fetchErr p sd ed t = none := by rw [fetchErr, hft]
      have hd2 : ∀ t1 ∈ ts, t1 ∉ (d0 ++ [(t, val)]).map Prod.fst := by
        intro t1 ht1
        rw [List.map_append, List.mem_append]
        rintro (h | h)
        · exact hd t1 (List.mem_cons_of_mem t ht1) h
        · simp only [List.map_cons, List.map_nil, List.mem_singleton] at h
          exact hnotin (h ▸ ht1)
      rw [hstep, ih (d0 ++ [(t, val)]) e0 hN2 hd2,
        List.filterMap_cons, List.filterMap_cons, hok, herr, List.append_assoc]
      rfl

/-! ## Helper lemmas: series extrema -/

theorem foldl_max_eq_or_mem (cs : List ℚ) : ∀ a : ℚ, cs.foldl max a = a ∨ cs.foldl max a ∈ cs := by
  induction cs with
  | nil => intro a; left; rfl
  | cons c cs ih =>
    intro a
    rw [List.foldl_cons]
    rcases ih (max a c) with h | h
    · rcases max_choice a c with h1 | h1
      · left; rw [h, h1]
      · right; rw [h, h1]; exact List.mem_cons_self c cs
    · right; exact List.mem_cons_of_mem c h

theorem le_foldl_max (cs : List ℚ) : ∀ a : ℚ, a ≤ cs.foldl max a := by
  induction cs with
  | nil => intro a; exact le_refl a
  | cons c cs ih =>
    intro a
    rw [List.foldl_cons]
    exact le_trans (le_max_left a c) (ih (max a c))

theorem mem_le_foldl_max (cs : List ℚ) : ∀ (a x : ℚ), x ∈ cs → x ≤ cs.foldl max a := by
  induction cs with
  | nil => intro a x hx; simp at hx
  | cons c cs ih =>
    intro a x hx
    rw [List.foldl_cons]
    rcases List.mem_cons.mp hx with h | h
    · subst h
      exact le_trans (le_max_right a x) (le_foldl_max cs (max a x))
    · exact ih (max a c) x h

theorem foldl_min_eq_or_mem (cs : List ℚ) : ∀ a : ℚ, cs.foldl min a = a ∨ cs.foldl min a ∈ cs := by
  induction cs with
  | nil => intro a; left; rfl
  | cons c cs ih =>
    intro a
    rw [List.foldl_cons]
    rcases ih (min a c) with h | h
    · rcases min_choice a c with h1 | h1
      · left; rw [h, h1]
      · right; rw [h, h1]; exact List.mem_cons_self c cs
    · right; exact List.mem_cons_of_mem c h

theorem foldl_min_le (cs : List ℚ) : ∀ a : ℚ, cs.foldl min a ≤ a := by
  induction cs with
  | nil => intro a; exact le_refl a
  | cons c cs ih =>
    intro a
    rw [List.foldl_cons]
    exact le_trans (ih (min a c)) (min_le_left a c)

theorem foldl_min_le_mem (cs : List ℚ) : ∀ (a x : ℚ), x ∈ cs → cs.foldl min a ≤ x := by
  induction cs with
  | nil => intro a x hx; simp at hx
  | cons c cs ih =>
    intro a x hx
    rw [List.foldl_cons]
    rcases List.mem_cons.mp hx with h | h
    · subst h
      exact le_trans (foldl_min_le cs (min a x)) (min_le_right a x)
    · exact ih (min a c) x h

theorem seriesMax_mem : ∀ l : List ℚ, l ≠ [] → seriesMax l ∈ l := by
  intro l h
  match l with
  | c :: cs =>
    rcases foldl_max_eq_or_mem cs c with h1 | h1
    · rw [seriesMax, h1]; exact List.mem_cons_self c cs
    · rw [seriesMax]; exact List.mem_cons_of_mem c h1

theorem le_seriesMax : ∀ (l : List ℚ) (x : ℚ), x ∈ l → x ≤ seriesMax l := by
  intro l x hx
  match l with
  | c :: cs =>
    rw [seriesMax]
    rcases List.mem_cons.mp hx with h | h
    · subst h; exact le_foldl_max cs x
    · exact mem_le_foldl_max cs c x h

theorem seriesMin_mem : ∀ l : List ℚ, l ≠ [] → seriesMin l ∈ l := by
  intro l h
  match l with
  | c :: cs =>
    rcases foldl_min_eq_or_mem cs c with h1 | h1
    · rw [seriesMin, h1]; exact List.mem_cons_self c cs
    · rw [seriesMin]; exact List.mem_cons_of_mem c h1

theorem seriesMin_le : ∀ (l : List ℚ) (x : ℚ), x ∈ l → seriesMin l ≤ x := by
  intro l x hx
  match l with
  | c :: cs =>
    rw [seriesMin]
    rcases List.mem_cons.mp hx with h | h
    · subst h; exact foldl_min_le cs x
    · exact foldl_min_le_mem cs c x h

/-! ## Claims -/

/-- C1: the claim says currency formatting renders 1234.5 as "R$ 1.234,50"
(dot for thousands, comma for decimals).  The code does not: the chained
`replace(",", ".").replace(".", ",", 1)` turns `"R$ 1,234.50"` into
`"R$ 1.234.50"` and then swaps the FIRST dot — the thousands separator —
back to a comma, yielding `"R$ 1,234.50"`.  The intended Brazilian-locale
swap therefore fails for every value with a thousands group; this theorem
records the divergence at the spec's own example input. -/
theorem fmt_currency_thousands_swap_bug :
    formatar_valor (some (1234.5 : ℚ)) ("real") = FmtResult.str ("R$ 1,234.50") ∧
    formatar_valor (some (1234.5 : ℚ)) ("real") ≠ FmtResult.str ("R$ 1.234,50") :=
  ⟨by decide, by decide⟩

/-- C2: for every input whose plain two-decimal render carries no thousands
grouping (no comma in `f"{v:,.2f}"` — e.g. values below 1000), the
separator swap is well-formed: the result has exactly one comma (the
decimal separator) and no dot; in particular 12.5 renders as "R$ 12,50". -/
theorem fmt_currency_no_grouping_ok :
    formatar_valor (some (12.5 : ℚ)) ("real") = FmtResult.str ("R$ 12,50") ∧
    ∀ v : ℚ, countChar ',' (pyFormatFixed true v).data = 0 →
      ∃ s : String, formatar_valor (some v) ("real") = FmtResult.str s ∧
        countChar ',' s.data = 1 ∧ countChar '.' s.data = 0 := by
  refine ⟨by decide, ?_⟩
  intro v h
  have happ : ((("R$ ") ++ pyFormatFixed true v)).data =
      (("R$ ") : String).data ++ (pyFormatFixed true v).data := rfl
  have hC : countChar ',' ((("R$ ") ++ pyFormatFixed true v)).data = 0 := by
    rw [happ, countChar_append, h]
    decide
  have hD : countChar '.' ((("R$ ") ++ pyFormatFixed true v)).data = 1 := by
    rw [happ, countChar_append, countChar_dot_pyFormatFixed]
    decide
  have hAll : replaceAllChar ',' '.' ((("R$ ") ++ pyFormatFixed true v)).data =
      ((("R$ ") ++ pyFormatFixed true v)).data :=
    replaceAllChar_of_count_zero '.' _ hC
  obtain ⟨hc1, hc0⟩ := replaceFirst_dot_comma _ hD hC
  refine ⟨_, formatar_valor_real v, ?_, ?_⟩
  · show countChar ','
      (replaceFirstChar '.' ','
        (replaceAllChar ',' '.' ((("R$ ") ++ pyFormatFixed true v)).data)) = 1
    rw [hAll]
    exact hc1
  · show countChar '.'
      (replaceFirstChar '.' ','
        (replaceAllChar ',' '.' ((("R$ ") ++ pyFormatFixed true v)).data)) = 0
    rw [hAll]
    exact hc0

/-- Witness for C2 at the spec's example 12.5 (which has no thousands
grouping): the rendered string has one comma and no dot. -/
theorem fmt_currency_no_grouping_ok_witness :
    ∃ s : String, formatar_valor (some (12.5 : ℚ)) ("real") = FmtResult.str s ∧
      countChar ',' s.data = 1 ∧ countChar '.' s.data = 0 :=
  fmt_currency_no_grouping_ok.2 (12.5 : ℚ) (by decide)

/-- C7: percentage formatting: a NaN input yields "N/A" (for every format
kind); 0.1 renders as "10.00%", 0 as "0.00%" and -0.1 as "-10.00%"; and
for every input value whatsoever the output consists of a minus sign
exactly when `v * 100` is negative, the decimal digits of the magnitude
of `v * 100` rounded to hundredths, a dot, exactly two fractional
digits, and a trailing percent sign. -/
theorem fmt_percent_spec :
    (∀ tipo : String, formatar_valor none tipo = FmtResult.str ("N/A")) ∧
    formatar_valor (some (0.1 : ℚ)) ("percentual") = FmtResult.str ("10.00%") ∧
    formatar_valor (some 0) ("percentual") = FmtResult.str ("0.00%") ∧
    formatar_valor (some (-0.1 : ℚ)) ("percentual") = FmtResult.str ("-10.00%") ∧
    ∀ v : ℚ, ∃ ip fp : Nat, fp < 100 ∧
      100 * ip + fp = (roundHalfEven (|v * 100| * 100)).toNat ∧
      formatar_valor (some v) ("percentual") =
        FmtResult.str (String.mk ((if v * 100 < 0 then ['-'] else []) ++
          natDigits ip ++ '.' :: twoFracDigits fp) ++ ("%")) := by
  refine ⟨fun tipo => formatar_valor_none tipo, by decide, by decide, by decide, ?_⟩
  intro v
  refine ⟨(roundHalfEven (|v * 100| * 100)).toNat / 100,
    (roundHalfEven (|v * 100| * 100)).toNat % 100, Nat.mod_lt _ (by norm_num), by omega, ?_⟩
  rw [formatar_valor_percentual]
  rfl

/-- Witness for C7 at the negative value v = -1/4: the rendering
decomposes into a minus sign, the digits of 25.00 and a percent sign as
claimed. -/
theorem fmt_percent_spec_witness :
    ∃ ip fp : Nat, fp < 100 ∧
      100 * ip + fp = (roundHalfEven (|(-(1/4) : ℚ) * 100| * 100)).toNat ∧
      formatar_valor (some (-(1/4) : ℚ)) ("percentual") =
        FmtResult.str (String.mk ((if (-(1/4) : ℚ) * 100 < 0 then ['-'] else []) ++
          natDigits ip ++ '.' :: twoFracDigits fp) ++ ("%")) :=
  fmt_percent_spec.2.2.2.2 (-(1/4) : ℚ)

/-- C8: the price-chart builder returns `none` exactly on the empty
series — a caller gets no figure to render in that case. -/
theorem chart_empty_none (Date : Type) (history : List (Date × ℚ)) (ticker : String) :
    criar_grafico_com_linhas history ticker = none ↔ history = [] := by
  cases history with
  | nil => simp [criar_grafico_com_linhas]
  | cons h0 rest => simp [criar_grafico_com_linhas]

/-- C9: the radar builder emits exactly one closed (`fill = "toself"`)
polar trace whose radii are the mapping's values unchanged and whose
angular categories are the mapping's keys, in the same order, with the
legend named after the entity label.  The value type is abstract, so no
scaling of the values is even expressible inside the builder. -/
theorem radar_identity_trace (α : Type) (val : List (String × α)) (nome : String) :
    ∃ tr, (criar_grafico_radar val nome).traces = [tr] ∧
      tr.r = val.map Prod.snd ∧ tr.theta = val.map Prod.fst ∧
      tr.fill = ("toself") ∧ tr.name = nome ∧
      (∀ i : Nat, tr.r[i]? = (val[i]?).map Prod.snd ∧ tr.theta[i]? = (val[i]?).map Prod.fst) ∧
      (criar_grafico_radar val nome).showlegend = true := by
  refine ⟨_, rfl, rfl, rfl, rfl, rfl, fun i => ⟨?_, ?_⟩, rfl⟩ <;>
    simp [List.getElem?_map]

/-- C3: retrieval processes each ticker independently.  For a duplicate-free
ticker list: the `dados` mapping consists of exactly the outcomes of the
successful tickers and the `erros` list of exactly one message per failed
ticker, in order; a ticker is in the mapping iff its fetch succeeded, and
is in the mapping iff it contributed no error string (disjointness); every
error message names its ticker followed by the reason (empty range or the
exception text). -/
theorem obter_dados_independent_outcomes {Info Date : Type} (p : Provider Info Date)
    (tickers : List String) (sd ed : Date) (hN : tickers.Nodup) :
    (obter_dados_tickers p tickers sd ed).1 = tickers.filterMap (fetchOk p sd ed) ∧
    (obter_dados_tickers p tickers sd ed).2 = tickers.filterMap (fetchErr p sd ed) ∧
    (∀ t, t ∈ tickers → ∀ v, ((t, v) ∈ (obter_dados_tickers p tickers sd ed).1 ↔
      fetchOne p sd ed t = Except.ok v)) ∧
    (∀ t, t ∈ tickers → ((∃ v, (t, v) ∈ (obter_dados_tickers p tickers sd ed).1) ↔
      fetchErr p sd ed t = none)) ∧
    (∀ t e, fetchOne p sd ed t = Except.error e →
      e = t ++ (": Nenhum dado encontrado no intervalo especificado.") ∨
      ∃ m, e = t ++ (": Erro ao buscar dados (") ++ m ++ (")."))  := by
  have hfold := obter_foldl p sd ed tickers [] [] hN (by simp)
  have hpair : obter_dados_tickers p tickers sd ed =
      (tickers.filterMap (fetchOk p sd ed), tickers.filterMap (fetchErr p sd ed)) := by
    rw [obter_dados_tickers, hfold]
    simp
  refine ⟨by rw [hpair], by rw [hpair], ?_, ?_, ?_⟩
  · intro t ht v
    rw [hpair]
    constructor
    · intro hmem
      obtain ⟨a, ha, hfa⟩ := List.mem_filterMap.mp hmem
      obtain ⟨rfl, hf⟩ := fetchOk_some p sd ed a t v hfa
      exact hf
    · intro hf
      refine List.mem_filterMap.mpr ⟨t, ht, ?_⟩
      rw [fetchOk, hf]
  · intro t ht
    constructor
    · rintro ⟨v, hv⟩
      rw [hpair] at hv
      obtain ⟨a, ha, hfa⟩ := List.mem_filterMap.mp hv
      obtain ⟨rfl, hf⟩ := fetchOk_some p sd ed a t v hfa
      rw [fetchErr, hf]
    · intro hf
      rcases hone : fetchOne p sd ed t with e | val
      · rw [fetchErr, hone] at hf
        exact absurd hf (by simp)
      · refine ⟨val, ?_⟩
        rw [hpair]
        exact List.mem_filterMap.mpr ⟨t, ht, by rw [fetchOk, hone]⟩
  · intro t e hfe
    rw [fetchOne] at hfe
    split at hfe
    · injection hfe with h1
      exact Or.inr ⟨_, h1.symm⟩
    · split at hfe
      · injection hfe with h1
        exact Or.inl h1.symm
      · split at hfe
        · injection hfe with h1
          exact Or.inr ⟨_, h1.symm⟩
        · exact absurd hfe (by simp)

/-- Witness for C3: the concrete three-ticker scenario (empty history,
raising provider, well-behaved ticker): both error strings appear, each
naming its ticker, and the mapping holds exactly the well-behaved
ticker. -/
theorem obter_dados_independent_outcomes_witness :
    (obter_dados_tickers provTest [("EMPT"), ("BOOM"), ("GOOD")] 0 0).1 =
      [(("GOOD"), (7, [(10 : ℚ), 11]))] ∧
    (obter_dados_tickers provTest [("EMPT"), ("BOOM"), ("GOOD")] 0 0).2 =
      [("EMPT: Nenhum dado encontrado no intervalo especificado."),
       ("BOOM: Erro ao buscar dados (falha de rede).")] := by
  have h := obter_dados_independent_outcomes provTest [("EMPT"), ("BOOM"), ("GOOD")] 0 0
    (by decide)
  exact ⟨h.1.trans (by decide), h.2.1.trans (by decide)⟩

/-- C4: a single-element series raises no error: the previous-close
comparison falls back to the single element itself, so the builder
returns a figure whose last-close marker sits at that value and is
colored red ("not greater"). -/
theorem chart_single_point_ok (Date : Type) (history : List (Date × ℚ)) (ticker : String)
    (h : history.length = 1) :
    ∃ fig, criar_grafico_com_linhas history ticker = some fig ∧
      ∃ tr, fig.elems[3]? = some (FigElem.scatter tr) ∧
        tr.y = [(history.map Prod.snd).getLastD 0] ∧ tr.markerColor = some ("red") := by
  cases history with
  | nil => simp at h
  | cons p rest =>
    cases rest with
    | cons q rest2 => simp [List.length_cons] at h
    | nil =>
      obtain ⟨d, c⟩ := p
      refine ⟨_, rfl, _, rfl, rfl, ?_⟩
      show some (if c > c then ("green") else ("red")) = some ("red")
      rw [if_neg (lt_irrefl c)]

/-- Witness for C4 at the spec's example, the single-element series [20]:
marker at 20, colored red, no crash. -/
theorem chart_single_point_ok_witness :
    ∃ fig, criar_grafico_com_linhas [((0 : Nat), (20 : ℚ))] ("X") = some fig ∧
      ∃ tr, fig.elems[3]? = some (FigElem.scatter tr) ∧
        tr.y = [([((0 : Nat), (20 : ℚ))].map Prod.snd).getLastD 0] ∧
        tr.markerColor = some ("red") :=
  chart_single_point_ok Nat [((0 : Nat), (20 : ℚ))] ("X") (by decide)

/-- C5: for every non-empty chronological series the figure carries, in
order: the line trace, a horizontal line at the series maximum (green), a
horizontal line at the series minimum (red), and a marker trace at the
last close whose color is green exactly when the last close strictly
exceeds the previous close (red otherwise, including the one-point
fallback). -/
theorem chart_lines_extrema_marker (Date : Type) (history : List (Date × ℚ)) (ticker : String)
    (h : history ≠ []) :
    ∃ fig, criar_grafico_com_linhas history ticker = some fig ∧
      (∃ hl, fig.elems[1]? = some (FigElem.hline hl) ∧ hl.y ∈ history.map Prod.snd ∧
        (∀ c ∈ history.map Prod.snd, c ≤ hl.y) ∧ hl.lineColor = ("green")) ∧
      (∃ hl, fig.elems[2]? = some (FigElem.hline hl) ∧ hl.y ∈ history.map Prod.snd ∧
        (∀ c ∈ history.map Prod.snd, hl.y ≤ c) ∧ hl.lineColor = ("red")) ∧
      (∃ tr, fig.elems[3]? = some (FigElem.scatter tr) ∧
        tr.y = [(history.map Prod.snd).getLastD 0] ∧
        (tr.markerColor = some ("green") ∨ tr.markerColor = some ("red")) ∧
        (tr.markerColor = some ("green") ↔
          2 ≤ history.length ∧
            (history.map Prod.snd).dropLast.getLastD 0 < (history.map Prod.snd).getLastD 0)) := by
  cases history with
  | nil => exact absurd rfl h
  | cons h0 rest =>
    refine ⟨_, rfl, ⟨_, rfl, ?_, ?_, rfl⟩, ⟨_, rfl, ?_, ?_, rfl⟩, ⟨_, rfl, rfl, ?_, ?_⟩⟩
    · exact seriesMax_mem _ (by simp)
    · exact fun c hc => le_seriesMax _ c hc
    · exact seriesMin_mem _ (by simp)
    · exact fun c hc => seriesMin_le _ c hc
    · show some
        (if ((h0 :: rest).map Prod.snd).getLastD 0 >
            (if 1 < (h0 :: rest).length then ((h0 :: rest).map Prod.snd).dropLast.getLastD 0
             else ((h0 :: rest).map Prod.snd).getLastD 0)
         then ("green") else ("red")) = some ("green") ∨
      some
        (if ((h0 :: rest).map Prod.snd).getLastD 0 >
            (if 1 < (h0 :: rest).length then ((h0 :: rest).map Prod.snd).dropLast.getLastD 0
             else ((h0 :: rest).map Prod.snd).getLastD 0)
         then ("green") else ("red")) = some ("red")
      by_cases hlen : 1 < (h0 :: rest).length
      · simp only [if_pos hlen]
        by_cases hgt : ((h0 :: rest).map Prod.snd).getLastD 0 >
            ((h0 :: rest).map Prod.snd).dropLast.getLastD 0
        · left
          rw [if_pos hgt]
        · right
          rw [if_neg hgt]
      · simp only [if_neg hlen]
        right
        rw [if_neg (lt_irrefl _)]
    · show some
        (if ((h0 :: rest).map Prod.snd).getLastD 0 >
            (if 1 < (h0 :: rest).length then ((h0 :: rest).map Prod.snd).dropLast.getLastD 0
             else ((h0 :: rest).map Prod.snd).getLastD 0)
         then ("green") else ("red")) = some ("green") ↔
        2 ≤ (h0 :: rest).length ∧
          ((h0 :: rest).map Prod.snd).dropLast.getLastD 0 < ((h0 :: rest).map Prod.snd).getLastD 0
      by_cases hlen : 1 < (h0 :: rest).length
      · simp only [if_pos hlen]
        by_cases hgt : ((h0 :: rest).map Prod.snd).getLastD 0 >
            ((h0 :: rest).map Prod.snd).dropLast.getLastD 0
        · rw [if_pos hgt]
          exact iff_of_true rfl ⟨hlen, hgt⟩
        · rw [if_neg hgt]
          refine iff_of_false (by decide) ?_
          rintro ⟨h2, hgt2⟩
          exact hgt hgt2
      · simp only [if_neg hlen]
        rw [if_neg (lt_irrefl _)]
        refine iff_of_false (by decide) ?_
        rintro ⟨h2, _⟩
        exact hlen h2

/-- Witness for C5 at the spec's example series [10, 12, 8, 15, 9]
(non-empty): maximum line, minimum line and last-close marker behave as
claimed; at this input the marker is red since 9 is not greater
than 15. -/
theorem chart_lines_extrema_marker_witness :
    ∃ fig, criar_grafico_com_linhas
        [((0 : Nat), (10 : ℚ)), (1, 12), (2, 8), (3, 15), (4, 9)] ("PETR4.SA") = some fig ∧
      (∃ hl, fig.elems[1]? = some (FigElem.hline hl) ∧
        hl.y ∈ [((0 : Nat), (10 : ℚ)), (1, 12), (2, 8), (3, 15), (4, 9)].map Prod.snd ∧
        (∀ c ∈ [((0 : Nat), (10 : ℚ)), (1, 12), (2, 8), (3, 15), (4, 9)].map Prod.snd,
          c ≤ hl.y) ∧ hl.lineColor = ("green")) ∧
      (∃ hl, fig.elems[2]? = some (FigElem.hline hl) ∧
        hl.y ∈ [((0 : Nat), (10 : ℚ)), (1, 12), (2, 8), (3, 15), (4, 9)].map Prod.snd ∧
        (∀ c ∈ [((0 : Nat), (10 : ℚ)), (1, 12), (2, 8), (3, 15), (4, 9)].map Prod.snd,
          hl.y ≤ c) ∧ hl.lineColor = ("red")) ∧
      (∃ tr, fig.elems[3]? = some (FigElem.scatter tr) ∧
        tr.y = [([((0 : Nat), (10 : ℚ)), (1, 12), (2, 8), (3, 15), (4, 9)].map
          Prod.snd).getLastD 0] ∧
        (tr.markerColor = some ("green") ∨ tr.markerColor = some ("red")) ∧
        (tr.markerColor = some ("green") ↔
          2 ≤ ([((0 : Nat), (10 : ℚ)), (1, 12), (2, 8), (3, 15), (4, 9)] :
            List (Nat × ℚ)).length ∧
            ([((0 : Nat), (10 : ℚ)), (1, 12), (2, 8), (3, 15), (4, 9)].map
              Prod.snd).dropLast.getLastD 0 <
              ([((0 : Nat), (10 : ℚ)), (1, 12), (2, 8), (3, 15), (4, 9)].map
                Prod.snd).getLastD 0)) :=
  chart_lines_extrema_marker Nat
    [((0 : Nat), (10 : ℚ)), (1, 12), (2, 8), (3, 15), (4, 9)] ("PETR4.SA") (by decide)

/-- C6: valuation extraction produces the five named fields in order;
the three price ratios default to 0 when missing and pass a present
numeric value through unscaled; the dividend-yield and payout-ratio
fields default to 0 when missing and are multiplied by 100 when present
and nonzero. -/
theorem valuation_fields_spec (info : List (String × PyNum)) :
    ((valuation info).map Prod.fst =
      [("P/L (Preço/Lucro)"), ("P/L Projetado"), ("P/VP"), ("Dividend Yield (%)"),
       ("Payout Ratio (%)")]) ∧
    (List.lookup ("trailingPE") info = none →
      (valuation info)[0]? = some (("P/L (Preço/Lucro)"), PyNum.num 0)) ∧
    (∀ q : ℚ, List.lookup ("trailingPE") info = some (PyNum.num q) →
      (valuation info)[0]? = some (("P/L (Preço/Lucro)"), PyNum.num q)) ∧
    (List.lookup ("forwardPE") info = none →
      (valuation info)[1]? = some (("P/L Projetado"), PyNum.num 0)) ∧
    (∀ q : ℚ, List.lookup ("forwardPE") info = some (PyNum.num q) →
      (valuation info)[1]? = some (("P/L Projetado"), PyNum.num q)) ∧
    (List.lookup ("priceToBook") info = none →
      (valuation info)[2]? = some (("P/VP"), PyNum.num 0)) ∧
    (∀ q : ℚ, List.lookup ("priceToBook") info = some (PyNum.num q) →
      (valuation info)[2]? = some (("P/VP"), PyNum.num q)) ∧
    (List.lookup ("dividendYield") info = none →
      (valuation info)[3]? = some (("Dividend Yield (%)"), PyNum.num 0)) ∧
    (∀ q : ℚ, q ≠ 0 → List.lookup ("dividendYield") info = some (PyNum.num q) →
      (valuation info)[3]? = some (("Dividend Yield (%)"), PyNum.num (q * 100))) ∧
    (List.lookup ("payoutRatio") info = none →
      (valuation info)[4]? = some (("Payout Ratio (%)"), PyNum.num 0)) ∧
    (∀ q : ℚ, q ≠ 0 → List.lookup ("payoutRatio") info = some (PyNum.num q) →
      (valuation info)[4]? = some (("Payout Ratio (%)"), PyNum.num (q * 100))) := by
  refine ⟨by simp [valuation], ?_, ?_, ?_, ?_, ?_, ?_, ?_, ?_, ?_, ?_⟩
  · intro h
    simp [valuation, pyGetD, h]
  · intro q h
    simp [valuation, pyGetD, h]
  · intro h
    simp [valuation, pyGetD, h]
  · intro q h
    simp [valuation, pyGetD, h]
  · intro h
    simp [valuation, pyGetD, h]
  · intro q h
    simp [valuation, pyGetD, h]
  · intro h
    simp [valuation, pyGet, pyGetD, pyTruthy, h]
  · intro q hq h
    simp [valuation, pyGet, pyGetD, pyTruthy, pyNumMul, h, hq]
  · intro h
    simp [valuation, pyGet, pyGetD, pyTruthy, h]
  · intro q hq h
    simp [valuation, pyGet, pyGetD, pyTruthy, pyNumMul, h, hq]

/-- Witness for C6: metadata carrying only dividendYield = 1/20 (= 0.05)
yields the percentage-scaled snapshot value 5 and the missing
trailingPE defaults to 0. -/
theorem valuation_fields_spec_witness :
    (valuation [(("dividendYield"), PyNum.num (1/20))])[3]? =
      some (("Dividend Yield (%)"), PyNum.num 5) ∧
    (valuation [(("dividendYield"), PyNum.num (1/20))])[0]? =
      some (("P/L (Preço/Lucro)"), PyNum.num 0) := by
  have h := valuation_fields_spec [(("dividendYield"), PyNum.num (1/20))]
  constructor
  · have h9 := h.2.2.2.2.2.2.2.2.1 (1/20 : ℚ) (by decide) (by decide)
    exact h9.trans (by decide)
  · exact h.2.1 (by decide)

/-- C10: a dividend-yield or payout-ratio entry that is present but falsy
(Python None, or exactly 0) extracts to exactly 0 — the default-to-zero
behaviour covers present-but-null and zero values, not only missing
keys. -/
theorem valuation_falsy_zero (info : List (String × PyNum)) :
    ((List.lookup ("dividendYield") info = some PyNum.null ∨
      List.lookup ("dividendYield") info = some (PyNum.num 0)) →
      (valuation info)[3]? = some (("Dividend Yield (%)"), PyNum.num 0)) ∧
    ((List.lookup ("payoutRatio") info = some PyNum.null ∨
      List.lookup ("payoutRatio") info = some (PyNum.num 0)) →
      (valuation info)[4]? = some (("Payout Ratio (%)"), PyNum.num 0)) := by
  constructor <;> rintro (h | h) <;> simp [valuation, pyGet, pyGetD, pyTruthy, h]

/-- Witness for C10: dividendYield stored as None and payoutRatio stored
as 0 both extract to 0. -/
theorem valuation_falsy_zero_witness :
    (valuation [(("dividendYield"), PyNum.null), (("payoutRatio"), PyNum.num 0)])[3]? =
      some (("Dividend Yield (%)"), PyNum.num 0) ∧
    (valuation [(("dividendYield"), PyNum.null), (("payoutRatio"), PyNum.num 0)])[4]? =
      some (("Payout Ratio (%)"), PyNum.num 0) := by
  have h := valuation_falsy_zero [(("dividendYield"), PyNum.null), (("payoutRatio"), PyNum.num 0)]
  exact ⟨h.1 (Or.inl (by decide)), h.2 (Or.inr (by decide))⟩
